import Mathlib

/-!
# Verification of the amf-loan-service investment settlement pipeline

Shallow embedding of the Go sources of `sigitisme/amf-loan-service`:

* `internal/domain/entities.go` — the data model (`Loan`, `Investment`,
  `InvestmentEvent`, loan states).
* `internal/service/investment_service.go` — `RequestInvestment` and
  `ProcessInvestment`.
* `internal/service/loan_service.go` — `CreateLoan`, `ApproveLoan`,
  `DisburseLoan`.
* `internal/service/notification_service.go` — `SendAgreementLetters`.
* `internal/infrastructure/kafka/consumer.go` — `StartConsumer` /
  `processMessage`.
* `internal/infrastructure/repository/loan_repository.go` — transaction
  boundaries of `GetByIDWithLock` and `CreateWithTx`.

Modelling conventions: Go `float64` amounts are modelled as `Rat`
(exact arithmetic — the code never introduces rounding itself, it only
adds and subtracts event amounts); `uuid.UUID` and `time.Time` values
are modelled as `Nat` (the code only compares them for equality or
stores them); fallible repository / producer / notification calls are
modelled by explicit environment fields (`Option` for a load that can
fail, `Bool` success flags for writes), since those collaborators are
external to the repository.  gorm's `Transaction` is all-or-nothing
(rollback on error), so a persisting call either commits all its rows
or none.
-/

namespace AmfLoan

/-- Loan lifecycle states, from `internal/domain/entities.go`
(`LoanStateProposed | LoanStateApproved | LoanStateInvested |
LoanStateDisbursed`). -/
inductive LoanState where
  | proposed
  | approved
  | invested
  | disbursed
deriving DecidableEq, Repr

/-- Position of a state in the forward lifecycle
`proposed → approved → invested → disbursed`. -/
def LoanState.rank : LoanState → Nat
  | .proposed => 0
  | .approved => 1
  | .invested => 2
  | .disbursed => 3

/-- `domain.Borrower` (the fields the settlement pipeline reads:
its primary id and the owning user id). -/
structure Borrower where
  id : Nat
  userID : Nat
deriving DecidableEq, Repr

/-- `domain.Investor` (the fields the pipeline reads/writes). -/
structure Investor where
  id : Nat
  userID : Nat
  totalInvested : Rat
deriving DecidableEq, Repr

/-- `domain.Loan`, including the preloaded `Borrower` relation that
`RequestInvestment` consults for the self-investment check. -/
structure Loan where
  id : Nat
  borrowerID : Nat
  principalAmount : Rat
  investedAmount : Rat
  remainingInvestment : Rat
  rate : Rat
  roi : Rat
  totalInterest : Rat
  state : LoanState
  createdAt : Nat
  updatedAt : Nat
  borrower : Borrower
deriving DecidableEq, Repr

/-- `domain.Investment`. -/
structure Investment where
  id : Nat
  loanID : Nat
  investorID : Nat
  amount : Rat
  status : String
  agreementLetterURL : String
  createdAt : Nat
  updatedAt : Nat
deriving DecidableEq, Repr

/-- `domain.Approval`. -/
structure Approval where
  id : Nat
  loanID : Nat
  validatorID : Nat
  photoProofURL : String
  approvalDate : Nat
  createdAt : Nat
deriving DecidableEq, Repr

/-- `domain.Disbursement`. -/
structure Disbursement where
  id : Nat
  loanID : Nat
  officerID : Nat
  agreementFileURL : String
  disbursementDate : Nat
  createdAt : Nat
deriving DecidableEq, Repr

/-- `domain.InvestmentEvent` — the Kafka investment-intent event. -/
structure InvestmentEvent where
  id : Nat
  loanID : Nat
  investorID : Nat
  amount : Rat
  timestamp : Nat
deriving DecidableEq, Repr

/-- Error outcomes of the modelled operations.  Constructors mirror the
`domain.Err…` values of `internal/domain/errors.go` plus the wrapped /
ad-hoc errors the services build with `fmt.Errorf`. -/
inductive DomainErr where
  | userNotFound               -- domain.ErrUserNotFound
  | loanNotFound               -- domain.ErrLoanNotFound
  | loanAlreadyApproved        -- domain.ErrLoanAlreadyApproved
  | loanNotApproved            -- domain.ErrLoanNotApproved
  | loanNotInvested            -- domain.ErrLoanNotInvested
  | investmentExceedsLimit     -- domain.ErrInvestmentExceedsLimit
  | invalidInvestmentAmount    -- domain.ErrInvalidInvestmentAmount
  | selfInvestment             -- domain.ErrSelfInvestment
  | loanLockFailed             -- wraps "failed to get loan with lock"
  | loanNoLongerApproved       -- fmt.Errorf "loan is no longer in approved state"
  | persistFailed              -- wraps "failed to create investment with transaction"
  | publishFailed              -- wraps "failed to publish investment event"
  | approvalCreateFailed       -- approvalRepo.Create error
  | disbursementCreateFailed   -- disbursementRepo.Create error
  | loanUpdateFailed           -- loanRepo.Update error
  | unmarshalFailed            -- json.Unmarshal error in processMessage
  | fetchInvestmentsFailed     -- investmentRepo.GetByLoanID error
deriving DecidableEq, Repr

/-- The loan accounting invariant from the spec:
`invested_amount + remaining_investment == principal_amount` and
`remaining_investment >= 0`. -/
def LoanInvariant (l : Loan) : Prop :=
  l.investedAmount + l.remainingInvestment = l.principalAmount ∧
    0 ≤ l.remainingInvestment

instance (l : Loan) : Decidable (LoanInvariant l) := by
  unfold LoanInvariant; infer_instance

/-- `loanService.CreateLoan` (`internal/service/loan_service.go`): builds
the initial loan row.  `newID` stands in for `uuid.New()` and `now` for
`time.Now()`; `roi = rate * 0.8`, `totalInterest = principal * rate`. -/
def createLoan (borrower : Borrower) (principalAmount rate : Rat)
    (newID now : Nat) : Loan :=
  { id := newID
    borrowerID := borrower.id
    principalAmount := principalAmount
    investedAmount := 0
    remainingInvestment := principalAmount
    rate := rate
    roi := rate * (4 / 5)
    totalInterest := principalAmount * rate
    state := .proposed
    createdAt := now
    updatedAt := now
    borrower := borrower }

/-- The in-memory core of `investmentService.ProcessInvestment`
(`internal/service/investment_service.go`, the code between the locked
read and the `CreateWithTx` call): state check, capacity check,
construction of the `Investment` row, update of the loan amounts, and
the fully-funded clamp.  Returns the rows handed to `CreateWithTx`. -/
def processInvestmentCore (loan : Loan) (event : InvestmentEvent)
    (now : Nat) : Except DomainErr (Loan × Investment) :=
  if loan.state ≠ .approved then
    .error .loanNoLongerApproved
  else if event.amount > loan.remainingInvestment then
    .error .investmentExceedsLimit
  else
    let investment : Investment :=
      { id := event.id
        loanID := event.loanID
        investorID := event.investorID
        amount := event.amount
        status := "completed"
        agreementLetterURL := ""
        createdAt := event.timestamp
        updatedAt := now }
    let loan1 : Loan :=
      { loan with
        investedAmount := loan.investedAmount + event.amount
        remainingInvestment := loan.remainingInvestment - event.amount
        updatedAt := now }
    let loan2 : Loan :=
      if loan1.remainingInvestment ≤ 0 then
        { loan1 with state := .invested, remainingInvestment := 0 }
      else
        loan1
    .ok (loan2, investment)

/-- Outcomes of the external collaborator calls made by
`ProcessInvestment`: the locked load of the loan (`GetByIDWithLock`,
`none` models a load/lock error), and success flags for the atomic
persist (`CreateWithTx`), the fully-funded publish
(`PublishFullyFundedLoan`) and the notification fan-out
(`SendAgreementLetters`). -/
structure ProcEnv where
  lockLoan : Option Loan
  persistOk : Bool
  publishOk : Bool
  notifyOk : Bool
deriving DecidableEq, Repr

/-- The rows committed by one successful settlement: the updated loan,
the single new `Investment` record inserted by `CreateWithTx`, and the
increment applied to the investor aggregate
(`total_invested = total_invested + investment.Amount`). -/
structure SettlementCommit where
  loan : Loan
  investment : Investment
  totalInvestedDelta : Rat
deriving DecidableEq, Repr

/-- The logged / emitted side effects of the post-commit block of
`ProcessInvestment` (publish of the fully-funded event and agreement
letters; failures of either are logged, never returned). -/
inductive SideEffect where
  | publishedFullyFunded (loanID : Nat)
  | loggedPublishFailure (loanID : Nat)
  | sentAgreementLetters (loanID : Nat)
  | loggedNotifyFailure (loanID : Nat)
deriving DecidableEq, Repr

/-- `investmentService.ProcessInvestment`
(`internal/service/investment_service.go`): locked load, state and
capacity checks, amount updates and clamp (`processInvestmentCore`),
atomic persist via `CreateWithTx`, then the best-effort fully-funded
publish and notification fan-out whose failures are only logged.
The first component is the function's return value (`.ok` carries the
rows committed by `CreateWithTx`; on `.error` nothing was committed,
since gorm's `Transaction` rolls back); the second component is the
list of post-commit side effects. -/
def processInvestment (env : ProcEnv) (event : InvestmentEvent)
    (now : Nat) : Except DomainErr SettlementCommit × List SideEffect :=
  match env.lockLoan with
  | none => (.error .loanLockFailed, [])
  | some loan =>
    match processInvestmentCore loan event now with
    | .error e => (.error e, [])
    | .ok (loan2, investment) =>
      if env.persistOk then
        let effects1 : List SideEffect :=
          if loan2.state = .invested then
            if env.publishOk then [.publishedFullyFunded loan2.id]
            else [.loggedPublishFailure loan2.id]
          else []
        let effects2 : List SideEffect :=
          if loan2.state = .invested then
            if env.notifyOk then [.sentAgreementLetters loan2.id]
            else [.loggedNotifyFailure loan2.id]
          else []
        (.ok { loan := loan2
               investment := investment
               totalInvestedDelta := investment.amount },
         effects1 ++ effects2)
      else
        (.error .persistFailed, [])

/-- Collaborator outcomes for `RequestInvestment`: the investor lookup
(`GetByUserID`), the unlocked loan load (`GetByID`), the id that
`uuid.New()` assigns to the event, and the Kafka publish outcome. -/
structure RequestEnv where
  investor : Option Investor
  loan : Option Loan
  newEventID : Nat
  publishOk : Bool
deriving DecidableEq, Repr

/-- `investmentService.RequestInvestment`
(`internal/service/investment_service.go`): investor lookup, loan
lookup, approved-state check, self-investment check, positivity check,
advisory capacity check, then event construction and publish.  `.ok`
carries the published investment-intent event; on `.error` nothing was
published (every error return precedes the publish call, except the
publish failure itself which wrapped the producer error). -/
def requestInvestment (env : RequestEnv) (userID loanID : Nat)
    (amount : Rat) (now : Nat) : Except DomainErr InvestmentEvent :=
  match env.investor with
  | none => .error .userNotFound
  | some investor =>
    match env.loan with
    | none => .error .loanNotFound
    | some loan =>
      if loan.state ≠ .approved then
        .error .loanNotApproved
      else if loan.borrower.userID = userID then
        .error .selfInvestment
      else if amount ≤ 0 then
        .error .invalidInvestmentAmount
      else if amount > loan.remainingInvestment then
        .error .investmentExceedsLimit
      else
        let event : InvestmentEvent :=
          { id := env.newEventID
            loanID := loanID
            investorID := investor.id
            amount := amount
            timestamp := now }
        if env.publishOk then .ok event else .error .publishFailed

/-- Collaborator outcomes for `ApproveLoan`: the loan load (`GetByID`,
`none` models `gorm.ErrRecordNotFound`), the id for the new approval
row, and success flags for `approvalRepo.Create` and
`loanRepo.Update`. -/
structure ApproveEnv where
  loan : Option Loan
  newApprovalID : Nat
  approvalCreateOk : Bool
  loanUpdateOk : Bool
deriving DecidableEq, Repr

/-- `loanService.ApproveLoan` (`internal/service/loan_service.go`):
load, proposed-state check (else `ErrLoanAlreadyApproved`), approval
record creation, then the loan state update to `approved`.  `.ok`
carries the updated loan row and the approval record. -/
def approveLoan (env : ApproveEnv) (loanID validatorID : Nat)
    (photoProofURL : String) (approvalDate now : Nat) :
    Except DomainErr (Loan × Approval) :=
  match env.loan with
  | none => .error .loanNotFound
  | some loan =>
    if loan.state ≠ .proposed then
      .error .loanAlreadyApproved
    else
      let approval : Approval :=
        { id := env.newApprovalID
          loanID := loanID
          validatorID := validatorID
          photoProofURL := photoProofURL
          approvalDate := approvalDate
          createdAt := now }
      if ¬ env.approvalCreateOk then
        .error .approvalCreateFailed
      else
        let loan2 : Loan := { loan with state := .approved, updatedAt := now }
        if env.loanUpdateOk then .ok (loan2, approval)
        else .error .loanUpdateFailed

/-- Collaborator outcomes for `DisburseLoan`, mirroring
`ApproveEnv`. -/
structure DisburseEnv where
  loan : Option Loan
  newDisbursementID : Nat
  disbursementCreateOk : Bool
  loanUpdateOk : Bool
deriving DecidableEq, Repr

/-- `loanService.DisburseLoan` (`internal/service/loan_service.go`):
load, invested-state check (else `ErrLoanNotInvested`), disbursement
record creation, then the loan state update to `disbursed`. -/
def disburseLoan (env : DisburseEnv) (loanID officerID : Nat)
    (agreementFileURL : String) (disbursementDate now : Nat) :
    Except DomainErr (Loan × Disbursement) :=
  match env.loan with
  | none => .error .loanNotFound
  | some loan =>
    if loan.state ≠ .invested then
      .error .loanNotInvested
    else
      let disbursement : Disbursement :=
        { id := env.newDisbursementID
          loanID := loanID
          officerID := officerID
          agreementFileURL := agreementFileURL
          disbursementDate := disbursementDate
          createdAt := now }
      if ¬ env.disbursementCreateOk then
        .error .disbursementCreateFailed
      else
        let loan2 : Loan := { loan with state := .disbursed, updatedAt := now }
        if env.loanUpdateOk then .ok (loan2, disbursement)
        else .error .loanUpdateFailed

/-- `notificationService.generateAgreementLetterURL`
(`internal/service/notification_service.go`). -/
def generateAgreementLetterURL (loanID investorID investmentID : Nat) :
    String :=
  "https://amf-documents.s3.amazonaws.com/agreements/loan_" ++
    toString loanID ++ "/investor_" ++ toString investorID ++
    "/agreement_" ++ toString investmentID ++ ".pdf"

/-- Per-investment outcome of the agreement-letter fan-out: the url that
was generated, whether `UpdateAgreementLetterURL` persisted it, and
whether the (simulated) email was sent.  On a persist failure the loop
logs and `continue`s, so the email for that one investment is skipped
while the remaining investments are still processed. -/
structure LetterOutcome where
  investmentID : Nat
  url : String
  urlPersisted : Bool
  emailSent : Bool
deriving DecidableEq, Repr

/-- `notificationService.SendAgreementLetters`
(`internal/service/notification_service.go`): fetch all investments of
the loan (`fetched = none` models a `GetByLoanID` error, the only error
return of the function), then for each investment generate the letter
url, attempt to persist it (`updateOk` gives the outcome of
`UpdateAgreementLetterURL` per investment id) and send the email;
a failed persist is logged and the loop continues.  The function
returns `.ok` with one outcome per investment whenever the fetch
succeeded. -/
def sendAgreementLetters (fetched : Option (List Investment))
    (updateOk : Nat → Bool) (loanID : Nat) :
    Except DomainErr (List LetterOutcome) :=
  match fetched with
  | none => .error .fetchInvestmentsFailed
  | some investments =>
    .ok (investments.map (fun inv =>
      let url := generateAgreementLetterURL loanID inv.investorID inv.id
      let ok := updateOk inv.id
      { investmentID := inv.id
        url := url
        urlPersisted := ok
        emailSent := ok }))

/-- One fetched Kafka message together with the collaborator outcomes
its processing will see: `message = none` models a `json.Unmarshal`
failure, `env` the repository outcomes inside `ProcessInvestment`, and
`commitOk` the outcome of `reader.CommitMessages`. -/
structure ConsumerInput where
  message : Option InvestmentEvent
  env : ProcEnv
  commitOk : Bool
deriving DecidableEq, Repr

/-- `Consumer.processMessage`
(`internal/infrastructure/kafka/consumer.go`): unmarshal the message
value, then run `ProcessInvestment`; an error from either is returned
to the caller. -/
def processMessage (env : ProcEnv) (message : Option InvestmentEvent)
    (now : Nat) : Except DomainErr Unit :=
  match message with
  | none => .error .unmarshalFailed
  | some event =>
    match (processInvestment env event now).fst with
    | .error e => .error e
    | .ok _ => .ok ()

/-- The per-message loop body of `Consumer.StartConsumer`
(`internal/infrastructure/kafka/consumer.go`) over a finite list of
fetched messages: if `processMessage` fails the message is NOT
committed and the loop `continue`s with the next message; on success
`CommitMessages` is called (its own failure is only logged).  The
returned list holds, for each fetched message in order, whether it was
acknowledged (committed to Kafka). -/
def consumerRun : List ConsumerInput → Nat → List Bool
  | [], _ => []
  | inp :: rest, now =>
    match processMessage inp.env inp.message now with
    | .error _ => false :: consumerRun rest now
    | .ok _ => inp.commitOk :: consumerRun rest now

/-- Sequential application of a batch of settlement attempts to one
loan: each attempt runs `processInvestment` with the locked read
returning the loan as left by the previous committed settlement (the
serialisation the spec intends), with the given persist outcome.
Returns the final loan row together with the sum of the amounts of the
settlements that committed; rejected or failed attempts leave the loan
unchanged. -/
def applySettlements (now : Nat) :
    List (InvestmentEvent × Bool) → Loan → Loan × Rat
  | [], loan => (loan, 0)
  | (event, persistOk) :: rest, loan =>
    match (processInvestment
        { lockLoan := some loan, persistOk := persistOk,
          publishOk := true, notifyOk := true } event now).fst with
    | .ok commit =>
      let r := applySettlements now rest commit.loan
      (r.fst, commit.investment.amount + r.snd)
    | .error _ => applySettlements now rest loan

/-- Final database state of an interleaved run of two settlers: the
loan row after both, and the `Investment` row each settler committed
(`none` when that settler's transaction rejected). -/
structure PairRun where
  loanRow : Loan
  committed1 : Option Investment
  committed2 : Option Investment
deriving DecidableEq, Repr

/-- Two concurrent `ProcessInvestment` calls for the same loan under the
schedule read₁; read₂; commit₁; commit₂, exactly as the code's
transaction boundaries permit it: `GetByIDWithLock` runs as its own
auto-committed statement (`loan_repository.go` issues it directly on
`r.db`, not inside the later transaction — and gorm v2 ignores the
`Set("gorm:query_option", "FOR UPDATE")` hint altogether), so no lock
is held when it returns and the second settler's read is not blocked;
each settler then computes from its own snapshot and `CreateWithTx`
persists with `tx.Save(loan)`, overwriting the loan row with the
snapshot-derived values.  Settler 2's commit is applied after settler
1's. -/
def runPairSchedule (loan : Loan) (event1 event2 : InvestmentEvent)
    (now : Nat) : PairRun :=
  let snap1 := loan
  let snap2 := loan
  let step1 : Loan × Option Investment :=
    match processInvestmentCore snap1 event1 now with
    | .ok (l, i) => (l, some i)
    | .error _ => (loan, none)
  let step2 : Loan × Option Investment :=
    match processInvestmentCore snap2 event2 now with
    | .ok (l, i) => (l, some i)
    | .error _ => (step1.fst, none)
  { loanRow := step2.fst
    committed1 := step1.snd
    committed2 := step2.snd }

/-! ## Concrete instances used by witnesses and counterexamples -/

/-- A loan half funded: principal 100000, invested 50000, remaining
50000, in `approved` state; the borrower is user 10. -/
def exLoanHalf : Loan :=
  { id := 1
    borrowerID := 1
    principalAmount := 100000
    investedAmount := 50000
    remainingInvestment := 50000
    rate := 1 / 10
    roi := 2 / 25
    totalInterest := 10000
    state := .approved
    createdAt := 0
    updatedAt := 0
    borrower := { id := 1, userID := 10 } }

/-- A 30000 investment intent from investor 7 against loan 1. -/
def exEvent1 : InvestmentEvent :=
  { id := 101, loanID := 1, investorID := 7, amount := 30000, timestamp := 0 }

/-- A 30000 investment intent from investor 8 against loan 1. -/
def exEvent2 : InvestmentEvent :=
  { id := 102, loanID := 1, investorID := 8, amount := 30000, timestamp := 0 }

/-- A negative-amount investment intent. -/
def exEventNeg : InvestmentEvent :=
  { id := 103, loanID := 1, investorID := 7, amount := -5000, timestamp := 0 }

/-- A 50000 investment intent, exactly the remaining capacity of
`exLoanHalf`. -/
def exEventFull : InvestmentEvent :=
  { id := 104, loanID := 1, investorID := 9, amount := 50000, timestamp := 0 }

/-- A 60000 investment intent, above the remaining capacity of
`exLoanHalf`. -/
def exEventTooBig : InvestmentEvent :=
  { id := 105, loanID := 1, investorID := 9, amount := 60000, timestamp := 0 }

/-- A two-message consumer batch: a capacity-rejected intent followed
by a successful full-funding intent. -/
def exConsumerInputs : List ConsumerInput :=
  [{ message := some exEventTooBig,
     env := ⟨some exLoanHalf, true, true, true⟩, commitOk := true },
   { message := some exEventFull,
     env := ⟨some exLoanHalf, true, true, true⟩, commitOk := true }]

/-- The borrower used by witness instantiations. -/
def exBorrower : Borrower := { id := 1, userID := 10 }

/-- The loan created from `exBorrower` with principal 100000 after its
approval: the row `ApproveLoan` commits when run on the freshly
created loan. -/
def exLoanApproved : Loan :=
  { createLoan exBorrower 100000 (1 / 10) 1 0 with
    state := .approved, updatedAt := 0 }

/-- A committed investment of investor 7 used by the notification
witness. -/
def exInvestmentA : Investment :=
  { id := 21, loanID := 1, investorID := 7, amount := 100,
    status := "completed", agreementLetterURL := "",
    createdAt := 0, updatedAt := 0 }

/-- A committed investment of investor 8 used by the notification
witness. -/
def exInvestmentB : Investment :=
  { id := 22, loanID := 1, investorID := 8, amount := 200,
    status := "completed", agreementLetterURL := "",
    createdAt := 0, updatedAt := 0 }

/-- The investor used by witness instantiations (user 10, the borrower
of `exLoanHalf`). -/
def exInvestorSelf : Investor := { id := 5, userID := 10, totalInvested := 0 }

/-! ## Helper lemmas -/

/-- Everything a successful run of the settlement core guarantees about
the rows it hands to `CreateWithTx`. -/
theorem processInvestmentCore_ok_spec (loan : Loan) (event : InvestmentEvent)
    (now : Nat) (p : Loan × Investment)
    (hok : processInvestmentCore loan event now = .ok p) :
    loan.state = .approved ∧
    event.amount ≤ loan.remainingInvestment ∧
    p.fst.principalAmount = loan.principalAmount ∧
    p.fst.investedAmount = loan.investedAmount + event.amount ∧
    p.fst.remainingInvestment = loan.remainingInvestment - event.amount ∧
    (p.fst.state = if loan.remainingInvestment - event.amount ≤ 0
      then LoanState.invested else LoanState.approved) ∧
    p.fst.id = loan.id ∧
    p.snd = { id := event.id, loanID := event.loanID,
              investorID := event.investorID, amount := event.amount,
              status := "completed", agreementLetterURL := "",
              createdAt := event.timestamp, updatedAt := now } := by
  unfold processInvestmentCore at hok
  split at hok
  · exact absurd hok (by simp)
  · next hstate =>
    split at hok
    · exact absurd hok (by simp)
    · next hamt =>
      rw [not_not] at hstate
      rw [not_lt] at hamt
      refine ⟨hstate, hamt, ?_⟩
      by_cases hfull : loan.remainingInvestment - event.amount ≤ 0
      · have hzero : loan.remainingInvestment - event.amount = 0 :=
          le_antisymm hfull (by simpa [sub_nonneg] using hamt)
        simp only [hfull, if_pos, Except.ok.injEq] at hok
        subst hok
        simp [hfull, hzero.symm]
      · simp only [hfull, if_neg, Except.ok.injEq, not_false_iff] at hok
        subst hok
        simp [hfull, hstate]

/-- Everything a successful `ProcessInvestment` run guarantees about
its committed rows, in terms of the loan returned by the locked
read. -/
theorem processInvestment_ok_spec (env : ProcEnv) (event : InvestmentEvent)
    (now : Nat) (loan : Loan) (c : SettlementCommit)
    (hlock : env.lockLoan = some loan)
    (hok : (processInvestment env event now).fst = .ok c) :
    loan.state = .approved ∧
    event.amount ≤ loan.remainingInvestment ∧
    env.persistOk = true ∧
    c.loan.principalAmount = loan.principalAmount ∧
    c.loan.investedAmount = loan.investedAmount + event.amount ∧
    c.loan.remainingInvestment = loan.remainingInvestment - event.amount ∧
    (c.loan.state = if loan.remainingInvestment - event.amount ≤ 0
      then LoanState.invested else LoanState.approved) ∧
    c.loan.id = loan.id ∧
    c.investment = { id := event.id, loanID := event.loanID,
                     investorID := event.investorID, amount := event.amount,
                     status := "completed", agreementLetterURL := "",
                     createdAt := event.timestamp, updatedAt := now } ∧
    c.totalInvestedDelta = event.amount := by
  rcases hcore : processInvestmentCore loan event now with e | p
  · simp [processInvestment, hlock, hcore] at hok
  · obtain ⟨l2, inv⟩ := p
    obtain ⟨hstate, hamt, hprin, hinv, hrem, hst, hid, hrec⟩ :=
      processInvestmentCore_ok_spec loan event now (l2, inv) hcore
    by_cases hpersist : env.persistOk
    · simp only [processInvestment, hlock, hcore, hpersist, if_pos] at hok
      rw [Except.ok.injEq] at hok
      subst hok
      exact ⟨hstate, hamt, hpersist, hprin, hinv, hrem, hst, hid, hrec, by
        simp only at hrec; rw [hrec]⟩
    · simp [processInvestment, hlock, hcore, hpersist] at hok

/-- `ProcessInvestment` succeeds whenever the locked load returns a
loan in `approved` state whose remaining capacity admits the event
amount and the atomic persist succeeds. -/
theorem processInvestment_ok_of (env : ProcEnv) (event : InvestmentEvent)
    (now : Nat) (loan : Loan)
    (hlock : env.lockLoan = some loan)
    (hpersist : env.persistOk = true)
    (hstate : loan.state = .approved)
    (hle : event.amount ≤ loan.remainingInvestment) :
    ∃ c, (processInvestment env event now).fst = .ok c := by
  have h1 : ¬ loan.state ≠ LoanState.approved := by simp [hstate]
  have h2 : ¬ event.amount > loan.remainingInvestment := not_lt.mpr hle
  rcases hres : (processInvestment env event now).fst with e | c
  · exfalso
    by_cases hfull : loan.remainingInvestment - event.amount ≤ 0 <;>
      simp [processInvestment, processInvestmentCore, hlock, hpersist,
        h1, h2, hfull] at hres
  · exact ⟨c, rfl⟩

/-- A locked load failure aborts `ProcessInvestment` with the wrapped
lock error. -/
theorem processInvestment_error_lock (env : ProcEnv)
    (event : InvestmentEvent) (now : Nat)
    (hlock : env.lockLoan = none) :
    (processInvestment env event now).fst = .error .loanLockFailed := by
  simp [processInvestment, hlock]

/-- A loan that is no longer `approved` aborts `ProcessInvestment`. -/
theorem processInvestment_error_state (env : ProcEnv)
    (event : InvestmentEvent) (now : Nat) (loan : Loan)
    (hlock : env.lockLoan = some loan)
    (hstate : loan.state ≠ .approved) :
    (processInvestment env event now).fst = .error .loanNoLongerApproved := by
  simp [processInvestment, processInvestmentCore, hlock, hstate]

/-- An event amount above the locked remaining capacity aborts
`ProcessInvestment` with `ErrInvestmentExceedsLimit`. -/
theorem processInvestment_error_limit (env : ProcEnv)
    (event : InvestmentEvent) (now : Nat) (loan : Loan)
    (hlock : env.lockLoan = some loan)
    (hstate : loan.state = .approved)
    (hgt : event.amount > loan.remainingInvestment) :
    (processInvestment env event now).fst = .error .investmentExceedsLimit := by
  simp [processInvestment, processInvestmentCore, hlock, hstate, hgt]

/-- A failing `CreateWithTx` aborts `ProcessInvestment` with the
wrapped persist error. -/
theorem processInvestment_error_persist (env : ProcEnv)
    (event : InvestmentEvent) (now : Nat) (loan : Loan)
    (hlock : env.lockLoan = some loan)
    (hpersist : env.persistOk = false)
    (hstate : loan.state = .approved)
    (hle : event.amount ≤ loan.remainingInvestment) :
    (processInvestment env event now).fst = .error .persistFailed := by
  have h1 : ¬ loan.state ≠ LoanState.approved := by simp [hstate]
  have h2 : ¬ event.amount > loan.remainingInvestment := not_lt.mpr hle
  by_cases hfull : loan.remainingInvestment - event.amount ≤ 0 <;>
    simp [processInvestment, processInvestmentCore, hlock, hpersist,
      h1, h2, hfull]

/-! ## Claim theorems -/

/-- C3: for every event applied by `ProcessInvestment` to a loan in
`approved` state with event amount not exceeding the locked remaining
capacity, the committed loan transitions to `invested` with remaining
capacity exactly 0 if and only if the event amount equals the locked
remaining capacity; otherwise the committed loan stays `approved` with
strictly positive remaining capacity. -/
theorem C3_invested_iff_capacity_reached (loan : Loan)
    (event : InvestmentEvent) (now : Nat) (pub ntf : Bool)
    (c : SettlementCommit)
    (_hstate : loan.state = .approved)
    (hamt : event.amount ≤ loan.remainingInvestment)
    (hok : (processInvestment ⟨some loan, true, pub, ntf⟩ event now).fst
      = .ok c) :
    ((c.loan.state = .invested ∧ c.loan.remainingInvestment = 0) ↔
      event.amount = loan.remainingInvestment) ∧
    (event.amount ≠ loan.remainingInvestment →
      c.loan.state = .approved ∧ 0 < c.loan.remainingInvestment) := by
  obtain ⟨-, -, -, -, -, hrem, hst, -, -, -⟩ :=
    processInvestment_ok_spec _ event now loan c rfl hok
  by_cases hfull : loan.remainingInvestment - event.amount ≤ 0
  · have heq : event.amount = loan.remainingInvestment :=
      le_antisymm hamt (sub_nonpos.mp hfull)
    refine ⟨⟨fun _ => heq, fun _ => ⟨?_, ?_⟩⟩, fun hne => absurd heq hne⟩
    · rw [hst, if_pos hfull]
    · rw [hrem, heq, sub_self]
  · have hlt : event.amount < loan.remainingInvestment := by
      have := not_le.mp hfull
      linarith
    have hstapp : c.loan.state = .approved := by rw [hst, if_neg hfull]
    have hpos : 0 < c.loan.remainingInvestment := by
      rw [hrem]
      linarith
    exact ⟨⟨fun h => absurd (hstapp.symm.trans h.1) (by simp),
      fun h => absurd h (ne_of_lt hlt)⟩, fun _ => ⟨hstapp, hpos⟩⟩

/-- C3 witness: `exLoanHalf` (remaining 50000) settled with
`exEventFull` (amount 50000) satisfies the hypotheses of
`C3_invested_iff_capacity_reached`, and the committed loan is
`invested` with remaining capacity 0. -/
theorem C3_witness :
    exLoanHalf.state = .approved ∧
    exEventFull.amount ≤ exLoanHalf.remainingInvestment ∧
    ∃ c, (processInvestment ⟨some exLoanHalf, true, true, true⟩
        exEventFull 0).fst = .ok c ∧
      (c.loan.state = .invested ∧ c.loan.remainingInvestment = 0) := by
  obtain ⟨c, hok⟩ := processInvestment_ok_of
    ⟨some exLoanHalf, true, true, true⟩ exEventFull 0 exLoanHalf rfl rfl
    rfl (by norm_num [exEventFull, exLoanHalf])
  have h := C3_invested_iff_capacity_reached exLoanHalf exEventFull 0
    true true c rfl (by norm_num [exEventFull, exLoanHalf]) hok
  exact ⟨rfl, by norm_num [exEventFull, exLoanHalf],
    c, hok, h.1.mpr (by norm_num [exEventFull, exLoanHalf])⟩

/-- C8: every `Investment` record committed by a successful settlement
carries the identity, loan reference, investor reference and amount of
the investment-intent event that produced it, and status
`"completed"`.  (The `.ok` result of `processInvestment` carries
exactly one `Investment` row — `CreateWithTx` performs a single
insert — so the record is created exactly once per committed
settlement.) -/
theorem C8_investment_record_fields (env : ProcEnv)
    (event : InvestmentEvent) (now : Nat) (c : SettlementCommit)
    (hok : (processInvestment env event now).fst = .ok c) :
    c.investment.id = event.id ∧
    c.investment.loanID = event.loanID ∧
    c.investment.investorID = event.investorID ∧
    c.investment.amount = event.amount ∧
    c.investment.status = "completed" := by
  rcases hlock : env.lockLoan with - | loan
  · rw [processInvestment_error_lock env event now hlock] at hok
    exact absurd hok (by simp)
  · obtain ⟨-, -, -, -, -, -, -, -, hrec, -⟩ :=
      processInvestment_ok_spec env event now loan c hlock hok
    rw [hrec]
    exact ⟨rfl, rfl, rfl, rfl, rfl⟩

/-- C8 witness: settling `exEventFull` against `exLoanHalf` commits and
the committed record carries the event's identity, amount and status
`"completed"`. -/
theorem C8_witness :
    ∃ c, (processInvestment ⟨some exLoanHalf, true, true, true⟩
        exEventFull 0).fst = .ok c ∧
      c.investment.id = exEventFull.id ∧
      c.investment.amount = exEventFull.amount ∧
      c.investment.status = "completed" := by
  obtain ⟨c, hok⟩ := processInvestment_ok_of
    ⟨some exLoanHalf, true, true, true⟩ exEventFull 0 exLoanHalf rfl rfl
    rfl (by norm_num [exEventFull, exLoanHalf])
  obtain ⟨h1, -, -, h4, h5⟩ :=
    C8_investment_record_fields ⟨some exLoanHalf, true, true, true⟩
      exEventFull 0 c hok
  exact ⟨c, hok, h1, h4, h5⟩

/-- C10 (implicit): `ProcessInvestment` performs no positivity check on
the event amount.  For a loan in `approved` state with positive
remaining capacity, an event with amount ≤ 0 passes both checks and
commits, creating an `Investment` record with non-positive amount; a
strictly negative amount strictly decreases `invested_amount` and
strictly raises `remaining_investment` above its prior value. -/
theorem C10_nonpositive_amount_commits (loan : Loan)
    (event : InvestmentEvent) (now : Nat) (pub ntf : Bool)
    (hstate : loan.state = .approved)
    (hrem : 0 < loan.remainingInvestment)
    (hamt : event.amount ≤ 0) :
    ∃ c, (processInvestment ⟨some loan, true, pub, ntf⟩ event now).fst
        = .ok c ∧
      c.investment.amount = event.amount ∧
      c.investment.status = "completed" ∧
      (event.amount < 0 →
        c.loan.investedAmount < loan.investedAmount ∧
        loan.remainingInvestment < c.loan.remainingInvestment) := by
  obtain ⟨c, hok⟩ := processInvestment_ok_of
    ⟨some loan, true, pub, ntf⟩ event now loan rfl rfl hstate
    (le_trans hamt (le_of_lt hrem))
  obtain ⟨-, -, -, -, hinv, hrem2, -, -, hrec, -⟩ :=
    processInvestment_ok_spec _ event now loan c rfl hok
  refine ⟨c, hok, by rw [hrec], by rw [hrec], fun hneg => ⟨?_, ?_⟩⟩
  · rw [hinv]; linarith
  · rw [hrem2]; linarith

/-- C10 witness: `exLoanHalf` settled with the −5000 intent
`exEventNeg` commits, records amount −5000, decreases
`invested_amount` and raises `remaining_investment`. -/
theorem C10_witness :
    exLoanHalf.state = .approved ∧
    0 < exLoanHalf.remainingInvestment ∧
    exEventNeg.amount ≤ 0 ∧
    ∃ c, (processInvestment ⟨some exLoanHalf, true, true, true⟩
        exEventNeg 0).fst = .ok c ∧
      c.investment.amount = exEventNeg.amount ∧
      c.loan.investedAmount < exLoanHalf.investedAmount ∧
      exLoanHalf.remainingInvestment < c.loan.remainingInvestment := by
  obtain ⟨c, hok, hamt, -, hmono⟩ := C10_nonpositive_amount_commits
    exLoanHalf exEventNeg 0 true true rfl
    (by norm_num [exLoanHalf]) (by norm_num [exEventNeg])
  obtain ⟨h1, h2⟩ := hmono (by norm_num [exEventNeg])
  exact ⟨rfl, by norm_num [exLoanHalf], by norm_num [exEventNeg],
    c, hok, hamt, h1, h2⟩

/-- C4: `ProcessInvestment` returns an error exactly when the loan
cannot be loaded and locked, or the locked loan is not `approved`, or
the event amount exceeds the remaining capacity read under the lock
(then specifically `ErrInvestmentExceedsLimit`), or the atomic persist
fails; in every other case it commits and returns success.  On every
error return nothing is committed: the `.ok` value alone carries the
rows written by `CreateWithTx`, which gorm rolls back entirely on
failure. -/
theorem C4_error_cases (env : ProcEnv) (event : InvestmentEvent)
    (now : Nat) :
    (env.lockLoan = none →
      (processInvestment env event now).fst = .error .loanLockFailed) ∧
    (∀ loan, env.lockLoan = some loan →
      ((∃ e, (processInvestment env event now).fst = .error e) ↔
        (loan.state ≠ .approved ∨
          event.amount > loan.remainingInvestment ∨
          env.persistOk = false)) ∧
      (loan.state = .approved →
        event.amount > loan.remainingInvestment →
        (processInvestment env event now).fst
          = .error .investmentExceedsLimit) ∧
      (loan.state = .approved →
        event.amount ≤ loan.remainingInvestment →
        env.persistOk = true →
        ∃ c, (processInvestment env event now).fst = .ok c)) := by
  refine ⟨fun hnone => processInvestment_error_lock env event now hnone,
    fun loan hlock => ⟨⟨?_, ?_⟩,
      fun hstate hgt => processInvestment_error_limit env event now loan
        hlock hstate hgt,
      fun hstate hle hpersist => processInvestment_ok_of env event now loan
        hlock hpersist hstate hle⟩⟩
  · intro ⟨e, herr⟩
    by_contra hcon
    push_neg at hcon
    obtain ⟨hstate, hle, hpersist⟩ := hcon
    obtain ⟨c, hok⟩ := processInvestment_ok_of env event now loan hlock
      (by simpa using hpersist) hstate hle
    rw [hok] at herr
    exact absurd herr (by simp)
  · intro h
    rcases h with hstate | hgt | hpersist
    · exact ⟨_, processInvestment_error_state env event now loan hlock
        hstate⟩
    · by_cases hstate : loan.state = .approved
      · exact ⟨_, processInvestment_error_limit env event now loan hlock
          hstate hgt⟩
      · exact ⟨_, processInvestment_error_state env event now loan hlock
          hstate⟩
    · by_cases hstate : loan.state = .approved
      · by_cases hle : event.amount ≤ loan.remainingInvestment
        · exact ⟨_, processInvestment_error_persist env event now loan
            hlock hpersist hstate hle⟩
        · exact ⟨_, processInvestment_error_limit env event now loan hlock
            hstate (not_le.mp hle)⟩
      · exact ⟨_, processInvestment_error_state env event now loan hlock
          hstate⟩

/-- C4 witness: with the half-funded loan, a 60000 intent is rejected
with `ErrInvestmentExceedsLimit`, while a failed persist on a fitting
intent yields an error; settling `exEventFull` with a working persist
commits. -/
theorem C4_witness :
    exLoanHalf.state = .approved ∧
    ({ id := 105, loanID := 1, investorID := 9, amount := 60000,
       timestamp := 0 : InvestmentEvent }.amount
      > exLoanHalf.remainingInvestment) ∧
    (processInvestment ⟨some exLoanHalf, true, true, true⟩
        { id := 105, loanID := 1, investorID := 9, amount := 60000,
          timestamp := 0 } 0).fst = .error .investmentExceedsLimit ∧
    ∃ c, (processInvestment ⟨some exLoanHalf, true, true, true⟩
        exEventFull 0).fst = .ok c := by
  have h1 := (C4_error_cases ⟨some exLoanHalf, true, true, true⟩
    { id := 105, loanID := 1, investorID := 9, amount := 60000,
      timestamp := 0 } 0).2 exLoanHalf rfl
  have h2 := (C4_error_cases ⟨some exLoanHalf, true, true, true⟩
    exEventFull 0).2 exLoanHalf rfl
  exact ⟨rfl, by norm_num [exLoanHalf],
    h1.2.1 rfl (by norm_num [exLoanHalf]),
    h2.2.2 rfl (by norm_num [exEventFull, exLoanHalf]) rfl⟩

/-- C7: whenever the investor lookup succeeds, the loan exists and is
`approved`, and the requesting user's identity equals the loan
borrower's user identity, `RequestInvestment` fails with
`ErrSelfInvestment` for every amount — including non-positive amounts
and amounts exceeding the observed remaining capacity — because the
self-investment check precedes the amount checks.  The `.error` result
means no investment-intent event is published: every error return of
the function precedes the producer call (except the publish failure
itself, which is not this error). -/
theorem C7_self_investment_precedence (env : RequestEnv)
    (userID loanID : Nat) (amount : Rat) (now : Nat)
    (investor : Investor) (loan : Loan)
    (hinvestor : env.investor = some investor)
    (hloan : env.loan = some loan)
    (hstate : loan.state = .approved)
    (hself : loan.borrower.userID = userID) :
    requestInvestment env userID loanID amount now
      = .error .selfInvestment := by
  have h1 : ¬ loan.state ≠ LoanState.approved := by simp [hstate]
  simp [requestInvestment, hinvestor, hloan, h1, hself]

/-- C7 witness: user 10 (the borrower behind `exLoanHalf`) requesting a
−7777 investment — an amount that is both non-positive and far from
the capacity check's reach — is rejected with `ErrSelfInvestment`. -/
theorem C7_witness :
    exLoanHalf.state = .approved ∧
    exLoanHalf.borrower.userID = 10 ∧
    requestInvestment
      { investor := some exInvestorSelf, loan := some exLoanHalf,
        newEventID := 200, publishOk := true } 10 1 (-7777) 0
      = .error .selfInvestment := by
  refine ⟨rfl, rfl, ?_⟩
  exact C7_self_investment_precedence _ 10 1 (-7777) 0 exInvestorSelf
    exLoanHalf rfl rfl rfl rfl

/-- C5: the settlement consumer acknowledges a fetched message only
when `processMessage` (unmarshal + `ProcessInvestment`) succeeded on
it; on any processing failure the message is left unacknowledged
(`false` in the run trace) and the loop continues with the next
message — every fetched message produces an entry in the trace, the
loop never stops early on a failed message. -/
theorem C5_ack_only_after_success (inputs : List ConsumerInput)
    (now : Nat) :
    (consumerRun inputs now).length = inputs.length ∧
    (∀ (i : Nat) (inp : ConsumerInput), inputs.get? i = some inp →
      ((consumerRun inputs now).get? i = some true →
        processMessage inp.env inp.message now = .ok ()) ∧
      (∀ e, processMessage inp.env inp.message now = .error e →
        (consumerRun inputs now).get? i = some false)) := by
  induction inputs with
  | nil =>
    exact ⟨rfl, fun i inp h => absurd h (by simp)⟩
  | cons inp rest ih =>
    rcases hmsg : processMessage inp.env inp.message now with e | u
    · have hrun : consumerRun (inp :: rest) now
          = false :: consumerRun rest now := by
        simp [consumerRun, hmsg]
      rw [hrun]
      refine ⟨by simp [ih.1], ?_⟩
      intro i inp2 hget
      cases i with
      | zero =>
        simp only [List.get?_cons_zero, Option.some.injEq] at hget
        subst hget
        exact ⟨fun habs => by simp at habs, fun e2 _ => by simp⟩
      | succ j =>
        simp only [List.get?_cons_succ] at hget ⊢
        exact ih.2 j inp2 hget
    · obtain ⟨⟩ := u
      have hrun : consumerRun (inp :: rest) now
          = inp.commitOk :: consumerRun rest now := by
        simp [consumerRun, hmsg]
      rw [hrun]
      refine ⟨by simp [ih.1], ?_⟩
      intro i inp2 hget
      cases i with
      | zero =>
        simp only [List.get?_cons_zero, Option.some.injEq] at hget
        subst hget
        exact ⟨fun _ => hmsg,
          fun e2 herr => absurd (hmsg.symm.trans herr) (by simp)⟩
      | succ j =>
        simp only [List.get?_cons_succ] at hget ⊢
        exact ih.2 j inp2 hget

/-- C5 witness: in the two-message batch `exConsumerInputs` — a
capacity-rejected intent followed by a successful one — every message
is processed, and message 1, which was acknowledged, indeed settled
successfully. -/
theorem C5_witness :
    (consumerRun exConsumerInputs 0).length = exConsumerInputs.length ∧
    processMessage ⟨some exLoanHalf, true, true, true⟩
      (some exEventFull) 0 = .ok () := by
  refine ⟨(C5_ack_only_after_success exConsumerInputs 0).1, ?_⟩
  have h := (C5_ack_only_after_success exConsumerInputs 0).2 1
    { message := some exEventFull,
      env := ⟨some exLoanHalf, true, true, true⟩, commitOk := true }
    (by rfl)
  exact h.1 (by decide)

/-- `ApproveLoan` on a loan that is not `proposed` fails with
`ErrLoanAlreadyApproved` and writes nothing. -/
theorem approveLoan_error_of_not_proposed (env : ApproveEnv)
    (loanID validatorID : Nat) (url : String) (apprDate now : Nat)
    (loan : Loan) (hlock : env.loan = some loan)
    (hstate : loan.state ≠ .proposed) :
    approveLoan env loanID validatorID url apprDate now
      = .error .loanAlreadyApproved := by
  simp [approveLoan, hlock, hstate]

/-- Unfolding of `ApproveLoan` on a `proposed` loan: the outcome is
decided by the two repository writes. -/
theorem approveLoan_eq_of_proposed (env : ApproveEnv)
    (loanID validatorID : Nat) (url : String) (apprDate now : Nat)
    (loan : Loan) (hlock : env.loan = some loan)
    (hstate : loan.state = .proposed) :
    approveLoan env loanID validatorID url apprDate now
      = if env.approvalCreateOk then
          (if env.loanUpdateOk then
            .ok ({ loan with state := .approved, updatedAt := now },
              { id := env.newApprovalID, loanID := loanID,
                validatorID := validatorID, photoProofURL := url,
                approvalDate := apprDate, createdAt := now })
          else .error .loanUpdateFailed)
        else .error .approvalCreateFailed := by
  have h1 : ¬ loan.state ≠ LoanState.proposed := by simp [hstate]
  by_cases hc : env.approvalCreateOk <;> by_cases hu : env.loanUpdateOk <;>
    simp [approveLoan, hlock, h1, hc, hu]

/-- `DisburseLoan` on a loan that is not `invested` fails with
`ErrLoanNotInvested` and writes nothing. -/
theorem disburseLoan_error_of_not_invested (env : DisburseEnv)
    (loanID officerID : Nat) (url : String) (disbDate now : Nat)
    (loan : Loan) (hlock : env.loan = some loan)
    (hstate : loan.state ≠ .invested) :
    disburseLoan env loanID officerID url disbDate now
      = .error .loanNotInvested := by
  simp [disburseLoan, hlock, hstate]

/-- Unfolding of `DisburseLoan` on an `invested` loan. -/
theorem disburseLoan_eq_of_invested (env : DisburseEnv)
    (loanID officerID : Nat) (url : String) (disbDate now : Nat)
    (loan : Loan) (hlock : env.loan = some loan)
    (hstate : loan.state = .invested) :
    disburseLoan env loanID officerID url disbDate now
      = if env.disbursementCreateOk then
          (if env.loanUpdateOk then
            .ok ({ loan with state := .disbursed, updatedAt := now },
              { id := env.newDisbursementID, loanID := loanID,
                officerID := officerID, agreementFileURL := url,
                disbursementDate := disbDate, createdAt := now })
          else .error .loanUpdateFailed)
        else .error .disbursementCreateFailed := by
  have h1 : ¬ loan.state ≠ LoanState.invested := by simp [hstate]
  by_cases hc : env.disbursementCreateOk <;> by_cases hu : env.loanUpdateOk <;>
    simp [disburseLoan, hlock, h1, hc, hu]

/-- C6: no operation moves a loan's state backward or skips a state.
`ApproveLoan` fails with `ErrLoanAlreadyApproved` (writing nothing) iff
the state is not `proposed`, and otherwise — when both repository
writes succeed — moves exactly `proposed → approved`; `DisburseLoan`
fails with `ErrLoanNotInvested` iff the state is not `invested`, and
otherwise moves exactly `invested → disbursed`; a committed settlement
starts from `approved` and ends in `approved` or `invested`, never
going backward and never advancing by more than one state. -/
theorem C6_forward_only_transitions :
    (∀ (env : ApproveEnv) (loanID validatorID : Nat) (url : String)
       (apprDate now : Nat) (loan : Loan), env.loan = some loan →
      ((approveLoan env loanID validatorID url apprDate now
          = .error .loanAlreadyApproved) ↔ loan.state ≠ .proposed) ∧
      (∀ l2 a, approveLoan env loanID validatorID url apprDate now
          = .ok (l2, a) →
        loan.state = .proposed ∧ l2.state = .approved ∧
        l2.state.rank = loan.state.rank + 1) ∧
      (loan.state = .proposed → env.approvalCreateOk = true →
        env.loanUpdateOk = true →
        ∃ a, approveLoan env loanID validatorID url apprDate now
          = .ok ({ loan with state := .approved, updatedAt := now }, a))) ∧
    (∀ (env : DisburseEnv) (loanID officerID : Nat) (url : String)
       (disbDate now : Nat) (loan : Loan), env.loan = some loan →
      ((disburseLoan env loanID officerID url disbDate now
          = .error .loanNotInvested) ↔ loan.state ≠ .invested) ∧
      (∀ l2 d, disburseLoan env loanID officerID url disbDate now
          = .ok (l2, d) →
        loan.state = .invested ∧ l2.state = .disbursed ∧
        l2.state.rank = loan.state.rank + 1) ∧
      (loan.state = .invested → env.disbursementCreateOk = true →
        env.loanUpdateOk = true →
        ∃ d, disburseLoan env loanID officerID url disbDate now
          = .ok ({ loan with state := .disbursed, updatedAt := now }, d))) ∧
    (∀ (env : ProcEnv) (event : InvestmentEvent) (now : Nat) (loan : Loan)
       (c : SettlementCommit), env.lockLoan = some loan →
      (processInvestment env event now).fst = .ok c →
      loan.state = .approved ∧
      (c.loan.state = .approved ∨ c.loan.state = .invested) ∧
      loan.state.rank ≤ c.loan.state.rank ∧
      c.loan.state.rank ≤ loan.state.rank + 1) := by
  refine ⟨?_, ?_, ?_⟩
  · intro env loanID validatorID url apprDate now loan hlock
    by_cases hstate : loan.state = .proposed
    · have heq := approveLoan_eq_of_proposed env loanID validatorID url
        apprDate now loan hlock hstate
      refine ⟨⟨fun herr => ?_, fun hne => absurd hstate hne⟩, ?_, ?_⟩
      · rw [heq] at herr
        by_cases hc : env.approvalCreateOk <;>
          by_cases hu : env.loanUpdateOk <;>
          simp [hc, hu] at herr
      · intro l2 a hok
        rw [heq] at hok
        by_cases hc : env.approvalCreateOk
        · by_cases hu : env.loanUpdateOk
          · rw [if_pos hc, if_pos hu, Except.ok.injEq, Prod.mk.injEq] at hok
            obtain ⟨hl2, -⟩ := hok
            rw [← hl2]
            exact ⟨hstate, rfl, by simp [LoanState.rank, hstate]⟩
          · rw [if_pos hc, if_neg hu] at hok
            exact absurd hok (by simp)
        · rw [if_neg hc] at hok
          exact absurd hok (by simp)
      · intro _ hc hu
        rw [heq, if_pos hc, if_pos hu]
        exact ⟨_, rfl⟩
    · have herr := approveLoan_error_of_not_proposed env loanID validatorID
        url apprDate now loan hlock hstate
      refine ⟨⟨fun _ => hstate, fun _ => herr⟩, ?_,
        fun habs => absurd habs hstate⟩
      intro l2 a hok
      rw [herr] at hok
      exact absurd hok (by simp)
  · intro env loanID officerID url disbDate now loan hlock
    by_cases hstate : loan.state = .invested
    · have heq := disburseLoan_eq_of_invested env loanID officerID url
        disbDate now loan hlock hstate
      refine ⟨⟨fun herr => ?_, fun hne => absurd hstate hne⟩, ?_, ?_⟩
      · rw [heq] at herr
        by_cases hc : env.disbursementCreateOk <;>
          by_cases hu : env.loanUpdateOk <;>
          simp [hc, hu] at herr
      · intro l2 d hok
        rw [heq] at hok
        by_cases hc : env.disbursementCreateOk
        · by_cases hu : env.loanUpdateOk
          · rw [if_pos hc, if_pos hu, Except.ok.injEq, Prod.mk.injEq] at hok
            obtain ⟨hl2, -⟩ := hok
            rw [← hl2]
            exact ⟨hstate, rfl, by simp [LoanState.rank, hstate]⟩
          · rw [if_pos hc, if_neg hu] at hok
            exact absurd hok (by simp)
        · rw [if_neg hc] at hok
          exact absurd hok (by simp)
      · intro _ hc hu
        rw [heq, if_pos hc, if_pos hu]
        exact ⟨_, rfl⟩
    · have herr := disburseLoan_error_of_not_invested env loanID officerID
        url disbDate now loan hlock hstate
      refine ⟨⟨fun _ => hstate, fun _ => herr⟩, ?_,
        fun habs => absurd habs hstate⟩
      intro l2 d hok
      rw [herr] at hok
      exact absurd hok (by simp)
  · intro env event now loan c hlock hok
    obtain ⟨hstate, -, -, -, -, -, hst, -, -, -⟩ :=
      processInvestment_ok_spec env event now loan c hlock hok
    by_cases hfull : loan.remainingInvestment - event.amount ≤ 0
    · rw [if_pos hfull] at hst
      rw [hstate, hst]
      exact ⟨rfl, Or.inr rfl, by simp [LoanState.rank], by simp [LoanState.rank]⟩
    · rw [if_neg hfull] at hst
      rw [hstate, hst]
      exact ⟨rfl, Or.inl rfl, le_refl _, by simp [LoanState.rank]⟩

/-- C6 witness: approving the proposed loan created from `exBorrower`
yields an `approved` loan; and on `exLoanHalf` (already `approved`),
approval fails with `ErrLoanAlreadyApproved`. -/
theorem C6_witness :
    (∃ a, approveLoan
        { loan := some (createLoan exBorrower 100000 (1 / 10) 1 0),
          newApprovalID := 11, approvalCreateOk := true,
          loanUpdateOk := true } 1 42 "proof.jpg" 0 0
      = .ok ({ createLoan exBorrower 100000 (1 / 10) 1 0 with
                state := .approved, updatedAt := 0 }, a)) ∧
    (approveLoan
        { loan := some exLoanHalf, newApprovalID := 12,
          approvalCreateOk := true, loanUpdateOk := true }
        1 42 "proof.jpg" 0 0
      = .error .loanAlreadyApproved) := by
  constructor
  · exact ((C6_forward_only_transitions.1
      { loan := some (createLoan exBorrower 100000 (1 / 10) 1 0),
        newApprovalID := 11, approvalCreateOk := true,
        loanUpdateOk := true } 1 42 "proof.jpg" 0 0
      (createLoan exBorrower 100000 (1 / 10) 1 0) rfl).2.2) rfl rfl rfl
  · exact ((C6_forward_only_transitions.1
      { loan := some exLoanHalf, newApprovalID := 12,
        approvalCreateOk := true, loanUpdateOk := true }
      1 42 "proof.jpg" 0 0 exLoanHalf rfl).1.mpr (by decide))

/-- C9: notification-delivery failures never propagate as settlement
failures.  The return value of `ProcessInvestment` is independent of
the outcomes of the fully-funded publish and of the agreement-letter
fan-out; and within `SendAgreementLetters`, every investment of the
loan is processed independently — investment `i`'s outcome depends
only on its own `UpdateAgreementLetterURL` result — and the function
returns success whenever the initial fetch succeeded, regardless of
per-investment failures. -/
theorem C9_notification_failure_isolated :
    (∀ (ll : Option Loan) (pk : Bool) (event : InvestmentEvent)
       (now : Nat) (b1 b2 b3 b4 : Bool),
      (processInvestment ⟨ll, pk, b1, b2⟩ event now).fst
        = (processInvestment ⟨ll, pk, b3, b4⟩ event now).fst) ∧
    (∀ (investments : List Investment) (updateOk : Nat → Bool)
       (loanID : Nat),
      ∃ outs, sendAgreementLetters (some investments) updateOk loanID
          = .ok outs ∧
        outs.length = investments.length ∧
        ∀ (i : Nat) (inv : Investment), investments.get? i = some inv →
          outs.get? i = some
            { investmentID := inv.id
              url := generateAgreementLetterURL loanID inv.investorID inv.id
              urlPersisted := updateOk inv.id
              emailSent := updateOk inv.id }) := by
  constructor
  · intro ll pk event now b1 b2 b3 b4
    rcases ll with - | loan
    · rfl
    · rcases hcore : processInvestmentCore loan event now with e | p
      · simp [processInvestment, hcore]
      · obtain ⟨l2, inv⟩ := p
        cases pk <;> simp [processInvestment, hcore]
  · intro investments updateOk loanID
    refine ⟨_, rfl, by simp [List.length_map], ?_⟩
    intro i inv hget
    rw [List.get?_map, hget]
    rfl

/-- C9 witness: a settlement of `exEventFull` (which fully funds
`exLoanHalf` and so triggers the notification path) returns the same
result whether publish and notification succeed or both fail; and the
letter fan-out over two investments where the first persist fails
still produces an outcome for the second with its email sent. -/
theorem C9_witness :
    (processInvestment ⟨some exLoanHalf, true, false, false⟩
        exEventFull 0).fst
      = (processInvestment ⟨some exLoanHalf, true, true, true⟩
        exEventFull 0).fst ∧
    ∃ outs, sendAgreementLetters (some [exInvestmentA, exInvestmentB])
        (fun i => i ≠ 21) 1 = .ok outs ∧
      outs.get? 1 = some
        { investmentID := 22,
          url := generateAgreementLetterURL 1 8 22,
          urlPersisted := true,
          emailSent := true } := by
  constructor
  · exact C9_notification_failure_isolated.1 (some exLoanHalf) true
      exEventFull 0 false false true true
  · obtain ⟨outs, hok, -, hget⟩ := C9_notification_failure_isolated.2
      [exInvestmentA, exInvestmentB] (fun i => i ≠ 21) 1
    refine ⟨outs, hok, ?_⟩
    have h := hget 1 exInvestmentB (by rfl)
    rw [h]
    simp [exInvestmentB]

/-- A committed settlement preserves the loan accounting invariant. -/
theorem processInvestment_preserves_invariant (env : ProcEnv)
    (event : InvestmentEvent) (now : Nat) (loan : Loan)
    (c : SettlementCommit) (hlock : env.lockLoan = some loan)
    (hok : (processInvestment env event now).fst = .ok c)
    (hinv : LoanInvariant loan) : LoanInvariant c.loan := by
  obtain ⟨-, hamt, -, hprin, hinv2, hrem, -, -, -, -⟩ :=
    processInvestment_ok_spec env event now loan c hlock hok
  constructor
  · rw [hinv2, hrem, hprin]
    have := hinv.1
    ring_nf
    linarith
  · rw [hrem]
    exact sub_nonneg.mpr hamt

/-- A successful approval changes no loan amount. -/
theorem approveLoan_ok_amounts (env : ApproveEnv)
    (loanID validatorID : Nat) (url : String) (apprDate now : Nat)
    (loan l2 : Loan) (a : Approval) (hlock : env.loan = some loan)
    (hok : approveLoan env loanID validatorID url apprDate now
      = .ok (l2, a)) :
    l2.investedAmount = loan.investedAmount ∧
    l2.remainingInvestment = loan.remainingInvestment ∧
    l2.principalAmount = loan.principalAmount := by
  by_cases hstate : loan.state = .proposed
  · rw [approveLoan_eq_of_proposed env loanID validatorID url apprDate now
      loan hlock hstate] at hok
    by_cases hc : env.approvalCreateOk
    · by_cases hu : env.loanUpdateOk
      · rw [if_pos hc, if_pos hu, Except.ok.injEq, Prod.mk.injEq] at hok
        obtain ⟨hl2, -⟩ := hok
        rw [← hl2]
        exact ⟨rfl, rfl, rfl⟩
      · rw [if_pos hc, if_neg hu] at hok
        exact absurd hok (by simp)
    · rw [if_neg hc] at hok
      exact absurd hok (by simp)
  · rw [approveLoan_error_of_not_proposed env loanID validatorID url
      apprDate now loan hlock hstate] at hok
    exact absurd hok (by simp)

/-- A successful approval starts from a `proposed` loan and commits an
`approved` one. -/
theorem approveLoan_ok_state (env : ApproveEnv)
    (loanID validatorID : Nat) (url : String) (apprDate now : Nat)
    (loan l2 : Loan) (a : Approval) (hlock : env.loan = some loan)
    (hok : approveLoan env loanID validatorID url apprDate now
      = .ok (l2, a)) :
    loan.state = .proposed ∧ l2.state = .approved := by
  by_cases hstate : loan.state = .proposed
  · rw [approveLoan_eq_of_proposed env loanID validatorID url apprDate now
      loan hlock hstate] at hok
    by_cases hc : env.approvalCreateOk
    · by_cases hu : env.loanUpdateOk
      · rw [if_pos hc, if_pos hu, Except.ok.injEq, Prod.mk.injEq] at hok
        obtain ⟨hl2, -⟩ := hok
        rw [← hl2]
        exact ⟨hstate, rfl⟩
      · rw [if_pos hc, if_neg hu] at hok
        exact absurd hok (by simp)
    · rw [if_neg hc] at hok
      exact absurd hok (by simp)
  · rw [approveLoan_error_of_not_proposed env loanID validatorID url
      apprDate now loan hlock hstate] at hok
    exact absurd hok (by simp)

/-- A successful disbursement changes no loan amount. -/
theorem disburseLoan_ok_amounts (env : DisburseEnv)
    (loanID officerID : Nat) (url : String) (disbDate now : Nat)
    (loan l2 : Loan) (d : Disbursement) (hlock : env.loan = some loan)
    (hok : disburseLoan env loanID officerID url disbDate now
      = .ok (l2, d)) :
    l2.investedAmount = loan.investedAmount ∧
    l2.remainingInvestment = loan.remainingInvestment ∧
    l2.principalAmount = loan.principalAmount := by
  by_cases hstate : loan.state = .invested
  · rw [disburseLoan_eq_of_invested env loanID officerID url disbDate now
      loan hlock hstate] at hok
    by_cases hc : env.disbursementCreateOk
    · by_cases hu : env.loanUpdateOk
      · rw [if_pos hc, if_pos hu, Except.ok.injEq, Prod.mk.injEq] at hok
        obtain ⟨hl2, -⟩ := hok
        rw [← hl2]
        exact ⟨rfl, rfl, rfl⟩
      · rw [if_pos hc, if_neg hu] at hok
        exact absurd hok (by simp)
    · rw [if_neg hc] at hok
      exact absurd hok (by simp)
  · rw [disburseLoan_error_of_not_invested env loanID officerID url
      disbDate now loan hlock hstate] at hok
    exact absurd hok (by simp)

/-- Sequentially applied settlements preserve the accounting invariant,
and the final `invested_amount` is the initial one plus the sum of the
committed amounts. -/
theorem applySettlements_spec (now : Nat)
    (evs : List (InvestmentEvent × Bool)) :
    ∀ loan : Loan, LoanInvariant loan →
      LoanInvariant (applySettlements now evs loan).fst ∧
      (applySettlements now evs loan).fst.investedAmount
        = loan.investedAmount + (applySettlements now evs loan).snd ∧
      (applySettlements now evs loan).fst.principalAmount
        = loan.principalAmount := by
  induction evs with
  | nil =>
    intro loan hinv
    exact ⟨hinv, by simp [applySettlements], rfl⟩
  | cons head tail ih =>
    intro loan hinv
    obtain ⟨event, persistOk⟩ := head
    rcases hres : (processInvestment
        ⟨some loan, persistOk, true, true⟩ event now).fst with e | c
    · have hrun : applySettlements now ((event, persistOk) :: tail) loan
          = applySettlements now tail loan := by
        simp [applySettlements, hres]
      rw [hrun]
      exact ih loan hinv
    · obtain ⟨-, -, -, hprin, hinv2, -, -, -, hrec, -⟩ :=
        processInvestment_ok_spec _ event now loan c rfl hres
      have hinvc : LoanInvariant c.loan :=
        processInvestment_preserves_invariant _ event now loan c rfl hres
          hinv
      have hrun : applySettlements now ((event, persistOk) :: tail) loan
          = ((applySettlements now tail c.loan).fst,
             c.investment.amount + (applySettlements now tail c.loan).snd)
          := by
        simp [applySettlements, hres]
      rw [hrun]
      obtain ⟨ih1, ih2, ih3⟩ := ih c.loan hinvc
      refine ⟨ih1, ?_, by rw [ih3, hprin]⟩
      have hca : c.investment.amount = event.amount := by rw [hrec]
      rw [ih2, hinv2, hca]
      ring

/-- C1 (amended): the loan accounting invariant
`invested_amount + remaining_investment == principal_amount` with
`remaining_investment ≥ 0` holds after loan creation (for the
non-negative principal the API admits), is preserved by every
committed settlement, approval and disbursement, and — once the
created loan has been approved, the step that opens it for investment
— for settlements applied sequentially to it, each settlement's locked
read seeing the previous committed state, the sum of committed amounts
never exceeds the original principal.  (Under the code's actual
interleaving the lock is not held through the commit and the sum CAN
exceed the principal: see the counterexample theorem.) -/
theorem C1_sequential_accounting_invariant (borrower : Borrower)
    (principalAmount rate : Rat) (newID now : Nat)
    (evs : List (InvestmentEvent × Bool))
    (aenv : ApproveEnv) (loanID validatorID : Nat) (url : String)
    (apprDate anow : Nat) (l1 : Loan) (a : Approval)
    (hprin : 0 ≤ principalAmount)
    (hload : aenv.loan
      = some (createLoan borrower principalAmount rate newID now))
    (happrove : approveLoan aenv loanID validatorID url apprDate anow
      = .ok (l1, a)) :
    LoanInvariant (createLoan borrower principalAmount rate newID now) ∧
    (∀ (env : ProcEnv) (event : InvestmentEvent) (pnow : Nat)
       (loan : Loan) (c : SettlementCommit), env.lockLoan = some loan →
      (processInvestment env event pnow).fst = .ok c →
      LoanInvariant loan → LoanInvariant c.loan) ∧
    (∀ (env : ApproveEnv) (lid vid : Nat) (u : String) (ad an : Nat)
       (loan l2 : Loan) (ap : Approval), env.loan = some loan →
      approveLoan env lid vid u ad an = .ok (l2, ap) →
      LoanInvariant loan → LoanInvariant l2) ∧
    (∀ (env : DisburseEnv) (lid oid : Nat) (u : String) (dd dn : Nat)
       (loan l2 : Loan) (d : Disbursement), env.loan = some loan →
      disburseLoan env lid oid u dd dn = .ok (l2, d) →
      LoanInvariant loan → LoanInvariant l2) ∧
    l1.state = .approved ∧
    LoanInvariant l1 ∧
    (∀ snow : Nat,
      LoanInvariant (applySettlements snow evs l1).fst ∧
      (applySettlements snow evs l1).snd ≤ principalAmount) := by
  have hinv0 : LoanInvariant (createLoan borrower principalAmount rate
      newID now) := ⟨by simp [createLoan], by simpa [createLoan] using hprin⟩
  obtain ⟨ha1, ha2, ha3⟩ := approveLoan_ok_amounts aenv loanID validatorID
    url apprDate anow _ l1 a hload happrove
  have hstates := approveLoan_ok_state aenv loanID validatorID url
    apprDate anow _ l1 a hload happrove
  have hinv1 : LoanInvariant l1 :=
    ⟨by rw [ha1, ha2, ha3]; exact hinv0.1, by rw [ha2]; exact hinv0.2⟩
  refine ⟨hinv0,
    fun env event pnow loan c hlock hok hinv =>
      processInvestment_preserves_invariant env event pnow loan c hlock
        hok hinv,
    ?_, ?_, hstates.2, hinv1, ?_⟩
  · intro env lid vid u ad an loan l2 ap hlock hok hinv
    obtain ⟨h1, h2, h3⟩ := approveLoan_ok_amounts env lid vid u ad an
      loan l2 ap hlock hok
    exact ⟨by rw [h1, h2, h3]; exact hinv.1, by rw [h2]; exact hinv.2⟩
  · intro env lid oid u dd dn loan l2 d hlock hok hinv
    obtain ⟨h1, h2, h3⟩ := disburseLoan_ok_amounts env lid oid u dd dn
      loan l2 d hlock hok
    exact ⟨by rw [h1, h2, h3]; exact hinv.1, by rw [h2]; exact hinv.2⟩
  · intro snow
    obtain ⟨hfin, hsum, hfprin⟩ := applySettlements_spec snow evs l1 hinv1
    have hi : l1.investedAmount = 0 := by rw [ha1]; rfl
    have hp : l1.principalAmount = principalAmount := by rw [ha3]; rfl
    refine ⟨hfin, ?_⟩
    have h1 := hfin.1
    have h2 := hfin.2
    rw [hfprin, hp] at h1
    rw [hi] at hsum
    linarith [h1, h2, hsum]

/-- C1 witness: the loan created from `exBorrower` with principal
100000 is approved (committing `exLoanApproved`), then the sequential
settlements `exEvent1` and `exEvent2` (30000 each) both commit — the
committed sum is exactly 60000 — the invariant holds throughout and
the sum stays below the principal. -/
theorem C1_witness :
    (0 : Rat) ≤ 100000 ∧
    approveLoan
      { loan := some (createLoan exBorrower 100000 (1 / 10) 1 0),
        newApprovalID := 11, approvalCreateOk := true,
        loanUpdateOk := true } 1 42 "proof.jpg" 0 0
      = .ok (exLoanApproved,
        { id := 11, loanID := 1, validatorID := 42,
          photoProofURL := "proof.jpg", approvalDate := 0,
          createdAt := 0 }) ∧
    LoanInvariant (applySettlements 0
      [(exEvent1, true), (exEvent2, true)] exLoanApproved).fst ∧
    (applySettlements 0
      [(exEvent1, true), (exEvent2, true)] exLoanApproved).snd ≤ 100000 ∧
    (applySettlements 0
      [(exEvent1, true), (exEvent2, true)] exLoanApproved).snd = 60000 := by
  have h := C1_sequential_accounting_invariant exBorrower 100000 (1 / 10)
    1 0 [(exEvent1, true), (exEvent2, true)]
    { loan := some (createLoan exBorrower 100000 (1 / 10) 1 0),
      newApprovalID := 11, approvalCreateOk := true,
      loanUpdateOk := true } 1 42 "proof.jpg" 0 0 exLoanApproved
    { id := 11, loanID := 1, validatorID := 42,
      photoProofURL := "proof.jpg", approvalDate := 0, createdAt := 0 }
    (by norm_num) rfl rfl
  have hlast := h.2.2.2.2.2.2 0
  refine ⟨by norm_num, rfl, hlast.1, hlast.2, ?_⟩
  norm_num [applySettlements, processInvestment, processInvestmentCore,
    exLoanApproved, createLoan, exBorrower, exEvent1, exEvent2]

/-- C1 counterexample: under the interleaving the code's transaction
boundaries permit (the `FOR UPDATE` read runs in its own
auto-committed statement, so it does not block a second settler's
read), two settlements of 30000 both commit against `exLoanHalf`
(principal 100000, already-committed amount 50000, remaining 50000),
so the sum of committed investment amounts — 50000 + 30000 + 30000 =
110000 — exceeds the loan's original principal, refuting the claim
that it never does for every sequence of committed settlements. -/
theorem C1_counterexample :
    ∃ i1 i2,
      (runPairSchedule exLoanHalf exEvent1 exEvent2 0).committed1
        = some i1 ∧
      (runPairSchedule exLoanHalf exEvent1 exEvent2 0).committed2
        = some i2 ∧
      LoanInvariant exLoanHalf ∧
      exLoanHalf.principalAmount
        < exLoanHalf.investedAmount + (i1.amount + i2.amount) := by
  refine ⟨_, _, rfl, rfl, by constructor <;> norm_num [exLoanHalf], ?_⟩
  norm_num [exLoanHalf, runPairSchedule, processInvestmentCore,
    exEvent1, exEvent2]

/-- C2: evaluation of the code's two-transaction settlement at the
failing input.  `ProcessInvestment` runs `GetByIDWithLock` as a
stand-alone auto-committed statement (on `r.db` directly — and gorm v2
ignores the `Set("gorm:query_option", "FOR UPDATE")` hint), then
`CreateWithTx` as a separate transaction, so the schedule
read₁; read₂; commit₁; commit₂ is permitted: both settlers of 30000
against a remaining capacity of 50000 pass the re-read check and both
commit — contradicting the claim that the exclusive lock blocks any
other settler between the locked re-read and the commit — and settler
2's `tx.Save` overwrites settler 1's committed loan row (final
`invested_amount` is 50000 + 30000, not 50000 + 60000: a lost
update). -/
theorem C2_lock_not_held_through_commit :
    ∃ i1 i2,
      (runPairSchedule exLoanHalf exEvent1 exEvent2 0).committed1
        = some i1 ∧
      (runPairSchedule exLoanHalf exEvent1 exEvent2 0).committed2
        = some i2 ∧
      exLoanHalf.remainingInvestment < i1.amount + i2.amount ∧
      (runPairSchedule exLoanHalf exEvent1 exEvent2 0).loanRow.investedAmount
        = exLoanHalf.investedAmount + exEvent2.amount := by
  refine ⟨_, _, rfl, rfl, ?_, ?_⟩
  · norm_num [exLoanHalf, runPairSchedule, processInvestmentCore,
      exEvent1, exEvent2]
  · norm_num [exLoanHalf, runPairSchedule, processInvestmentCore,
      exEvent1, exEvent2]

end AmfLoan
